import Mathlib

/-!
Shallow embedding of the MCP config analyser (`analyser.py`).

The embedding models:

* the process-wide environment variable table (`os.environ`) as a function
  `String → Option String`;
* `extract_tools_from_server` (analyser.py lines 39-116), with the behaviour of
  the external MCP session (everything inside the inner `try` body: spawn,
  handshake, `list_tools`) abstracted by a `SessionOutcome` oracle.  A config
  whose `command` key is absent makes the `StdioServerParameters(command=None,…)`
  construction at line 78 raise a validation error; that line sits outside the
  inner `try`/`except`, so the exception escapes the function (after the
  `finally` block restores the environment).  This is the one deterministic
  in-code path by which a per-server task raises, and is modelled as
  `Except.error`;
* `main` (analyser.py lines 118-192): config loading (`none` models an
  open/parse exception), the optional `--server` filter, the
  `asyncio.gather(*tasks, return_exceptions=True)` fan-out/fan-in, the
  exception filter of lines 169-174, and the assembly of the output document.
  `asyncio.gather` runs the tasks in an arbitrary completion order but delivers
  results at the input positions; the embedding makes the completion order an
  explicit `sched : List Nat` parameter (task indices in the order the event
  loop completes them) and stores each task's result at its input index.
  Timestamp and wall-clock duration metadata are real-time quantities and are
  not modelled; the remaining metadata counts are.
-/

namespace MCPAnalyser

/-- The process-wide environment table `os.environ`: variable name to value,
`none` meaning the variable is unset. -/
def Env : Type := String → Option String

/-- `os.environ[k] = v`. -/
def setEnv (e : Env) (k v : String) : Env :=
  fun x => if x = k then some v else e x

/-- `del os.environ[k]` (a no-op on absent keys, as guarded at line 113). -/
def unsetEnv (e : Env) (k : String) : Env :=
  fun x => if x = k then none else e x

/-- One iteration of the restore loop (analyser.py lines 111-116): a saved
value of `None` means the variable was previously absent and is deleted,
otherwise the saved value is written back. -/
def restoreVar (e : Env) (k : String) : Option String → Env
  | none => unsetEnv e k
  | some v => setEnv e k v

/-- The set-up loop of analyser.py lines 71-74: for each `(key, value)` of the
config's `env` mapping, record `original_env[key] = os.environ.get(key)` and
then set `os.environ[key] = value`.  Returns the updated table together with
the `original_env` association list in iteration order. -/
def applyEnvList : Env → List (String × String) → Env × List (String × Option String)
  | e, [] => (e, [])
  | e, (k, v) :: rest =>
    let r := applyEnvList (setEnv e k v) rest
    (r.1, (k, e k) :: r.2)

/-- The `finally` restore loop of analyser.py lines 109-116, iterating
`original_env` in insertion order. -/
def restoreEnvList : Env → List (String × Option String) → Env
  | e, [] => e
  | e, (k, ov) :: rest => restoreEnvList (restoreVar e k ov) rest

/-- One entry of the `mcpServers` mapping: `command` is `server_config.get("command")`
(absent key gives `none`), `args` and `env` default to empty (lines 53-55). -/
structure ServerConfig where
  command : Option String
  args : List String
  env : List (String × String)
  deriving Repr, DecidableEq

/-- One tool entry as reported by the server's `list_tools` response.  The
`inputSchema` and `annotations` payloads are passed through verbatim by the
code, so they are modelled as opaque strings. -/
structure RawTool where
  name : String
  description : String
  inputSchema : String
  annotations : String
  deriving Repr, DecidableEq

/-- The per-tool dictionary built at analyser.py lines 94-99. -/
structure ToolDescriptor where
  name : String
  description : String
  inputSchema : String
  annotations : String
  deriving Repr, DecidableEq

/-- The field-for-field copy performed at lines 94-99. -/
def mkDescriptor : RawTool → ToolDescriptor
  | { name := n, description := d, inputSchema := s, annotations := a } =>
    { name := n, description := d, inputSchema := s, annotations := a }

/-- The per-server result dictionary of analyser.py lines 58-64. -/
structure ServerResult where
  server_name : String
  command : Option String
  args : List String
  env : List (String × String)
  tools : List ToolDescriptor
  deriving Repr, DecidableEq

/-- Behaviour of the external MCP session for one server: everything inside the
inner `try` of analyser.py lines 83-101.  `success` carries the tool list
returned by `session.list_tools()`; `timeout` is the `asyncio.TimeoutError`
branch (line 102); `sessionError` is any other exception raised inside the
inner `try` (spawn failure, handshake failure, protocol error, malformed
response -- line 104). -/
inductive SessionOutcome where
  | success (rawTools : List RawTool)
  | timeout
  | sessionError (msg : String)
  deriving Repr, DecidableEq

/-- The value-level part of `extract_tools_from_server`: the dictionary the
call returns, or `Except.error` when the call raises.  The base `result`
dictionary (lines 58-64) echoes the config; in dry-run mode it is returned at
once (lines 66-68).  Otherwise, with no `command` in the config,
`StdioServerParameters(command=None, …)` at line 78 raises (outside the inner
`try`, so nothing catches it); with a command present, the three session
outcomes all reach `return result` at line 107, `success` after the append
loop of lines 93-99. -/
def extractResult (server_name : String) (cfg : ServerConfig) (dry_run : Bool)
    (oc : SessionOutcome) : Except String ServerResult :=
  let result : ServerResult :=
    { server_name := server_name, command := cfg.command, args := cfg.args,
      env := cfg.env, tools := [] }
  if dry_run then .ok result
  else
    match cfg.command with
    | none => .error "StdioServerParameters: command must be a string"
    | some _ =>
      match oc with
      | .success rawTools =>
        .ok { result with
              tools := rawTools.foldl (fun acc t => acc ++ [mkDescriptor t]) [] }
      | .timeout => .ok result
      | .sessionError _ => .ok result

/-- The environment table after `extract_tools_from_server` returns or raises.
In dry-run mode the function returns before touching the environment; in every
other case the set-up loop of lines 71-74 runs first and the `finally` block of
lines 109-116 runs last, on every exit path. -/
def extractEnvAfter (cfg : ServerConfig) (dry_run : Bool) (e : Env) : Env :=
  if dry_run then e
  else
    let r := applyEnvList e cfg.env
    restoreEnvList r.1 r.2

/-- `extract_tools_from_server(server_name, server_config, dry_run)`
(analyser.py lines 39-116), relative to a session-outcome oracle and the
current environment table: yields the returned dictionary (or the escaping
exception) together with the environment table after the call. -/
def extract_tools_from_server (server_name : String) (cfg : ServerConfig)
    (dry_run : Bool) (oc : SessionOutcome) (e : Env) :
    Except String ServerResult × Env :=
  (extractResult server_name cfg dry_run oc, extractEnvAfter cfg dry_run e)

/-- The parsed config document.  `mcpServers` is `none` when the JSON object
has no `mcpServers` key; `config.get("mcpServers", {})` (line 144) then yields
the empty mapping.  The mapping is kept in its JSON-object iteration order. -/
structure ConfigDoc where
  mcpServers : Option (List (String × ServerConfig))
  deriving Repr, DecidableEq

/-- Association-list lookup, modelling `args.server in mcp_servers` /
`mcp_servers[args.server]` (lines 148-150). -/
def lookupA : List (String × ServerConfig) → String → Option ServerConfig
  | [], _ => none
  | (k, v) :: rest, s => if k = s then some v else lookupA rest s

/-- The server mapping actually processed (lines 143-154): the `mcpServers`
mapping, narrowed to a single entry by `--server`; `none` when the requested
server is absent, in which case `main` logs and returns (lines 152-154). -/
def filteredServers (doc : ConfigDoc) (filter : Option String) :
    Option (List (String × ServerConfig)) :=
  let mcp := doc.mcpServers.getD []
  match filter with
  | none => some mcp
  | some s =>
    match lookupA mcp s with
    | some cfg => some [(s, cfg)]
    | none => none

/-- The event loop driving `asyncio.gather`: `sched` lists task indices in
completion order; each completed task's result is stored at its input index
(that is how `gather` delivers results), and the environment table is threaded
through the tasks in completion order.  Indices out of range are skipped. -/
def runTasksSched (tasks : List (String × ServerConfig))
    (outcomes : String → SessionOutcome) (dry_run : Bool) :
    List Nat → (Nat → Option (Except String ServerResult)) × Env →
    (Nat → Option (Except String ServerResult)) × Env
  | [], acc => acc
  | i :: rest, (f, e) =>
    match tasks.get? i with
    | none => runTasksSched tasks outcomes dry_run rest (f, e)
    | some p =>
      let step := extract_tools_from_server p.1 p.2 dry_run (outcomes p.1) e
      runTasksSched tasks outcomes dry_run rest
        ((fun j => if j = i then some step.1 else f j), step.2)

/-- `results = await asyncio.gather(*tasks, return_exceptions=True)`
(line 165): the results, one per task, in input (configuration) order,
whatever the completion order was; plus the environment afterwards. -/
def gatherSched (tasks : List (String × ServerConfig))
    (outcomes : String → SessionOutcome) (dry_run : Bool) (sched : List Nat)
    (e : Env) : List (Except String ServerResult) × Env :=
  let r := runTasksSched tasks outcomes dry_run sched (fun _ => none, e)
  ((List.range tasks.length).map
    (fun i => (r.1 i).getD (.error "task never completed")), r.2)

/-- The exception filter of analyser.py lines 168-174: exceptions are logged
and skipped, ordinary results are appended to `server_results`. -/
def serverResultsOf (results : List (Except String ServerResult)) :
    List ServerResult :=
  results.foldl
    (fun acc r => match r with | .ok v => acc ++ [v] | .error _ => acc) []

/-- The metadata block of the output document (lines 178-183), without the
real-time `timestamp` and `processing_time_seconds` fields. -/
structure Metadata where
  servers_processed : Nat
  servers_successful : Nat
  deriving Repr, DecidableEq

/-- The output document written to the output file (lines 177-189). -/
structure RunReport where
  metadata : Metadata
  servers : List ServerResult
  deriving Repr, DecidableEq

/-- `main()` (analyser.py lines 118-192).  `configLoad` is `none` when opening
or JSON-parsing the config file raises (the `except` at lines 139-141 logs and
returns).  The first component is the document written to the output file,
`none` when the run aborts before writing any output; the second component is
the environment table when `main` returns.  `main` never raises: every error
path logs and returns. -/
def main (configLoad : Option ConfigDoc) (filter : Option String)
    (dry_run : Bool) (outcomes : String → SessionOutcome) (sched : List Nat)
    (e : Env) : Option RunReport × Env :=
  match configLoad with
  | none => (none, e)
  | some doc =>
    match filteredServers doc filter with
    | none => (none, e)
    | some servers =>
      let g := gatherSched servers outcomes dry_run sched e
      let server_results := serverResultsOf g.1
      (some { metadata := { servers_processed := servers.length,
                            servers_successful := server_results.length },
              servers := server_results }, g.2)

/-- The result of a task that completed without raising, `none` for a task
that raised. -/
def okValue : Except String ServerResult → Option ServerResult
  | .ok r => some r
  | .error _ => none

/-- The per-server results of the tasks that completed without raising, in
configuration order. -/
def okResults (servers : List (String × ServerConfig)) (dry_run : Bool)
    (outcomes : String → SessionOutcome) : List ServerResult :=
  servers.filterMap
    (fun p => okValue (extractResult p.1 p.2 dry_run (outcomes p.1)))

/-- The base result dictionary for a server (lines 58-64): config echoed,
`tools` empty. -/
def baseResult (server_name : String) (cfg : ServerConfig) : ServerResult :=
  { server_name := server_name, command := cfg.command, args := cfg.args,
    env := cfg.env, tools := [] }

/-! Concrete inputs used to exercise the embedding. -/

/-- An environment table with no variables set. -/
def envEmpty : Env := fun _ => none

/-- An oracle under which every session attempt times out. -/
def ocTimeout : String → SessionOutcome := fun _ => .timeout

/-- A well-formed server config. -/
def cfgEx : ServerConfig :=
  { command := some "npx", args := ["-y", "tool"], env := [("API_KEY", "k")] }

/-- A server config whose `command` key is absent: `StdioServerParameters`
construction raises on it. -/
def cfgBroken : ServerConfig := { command := none, args := [], env := [] }

/-- A config document with a single broken server. -/
def docBroken : ConfigDoc := { mcpServers := some [("broken", cfgBroken)] }

/-- A config document with a single well-formed server. -/
def docOne : ConfigDoc := { mcpServers := some [("one", cfgEx)] }

/-- A config document with two well-formed servers. -/
def docTwo : ConfigDoc :=
  { mcpServers := some [("one", cfgEx), ("two", cfgBroken)] }

/-- A config document that parses but has no `mcpServers` key. -/
def docEmpty : ConfigDoc := { mcpServers := none }

/-- An environment table in which `API_KEY` is already set before the call. -/
def envHome : Env := fun k => if k = "API_KEY" then some "old" else none

/-- Two raw tools, in the order the server reports them. -/
def rawT1 : RawTool :=
  { name := "read_file", description := "Reads a file", inputSchema := "s1",
    annotations := "a1" }

/-- Second raw tool. -/
def rawT2 : RawTool :=
  { name := "write_file", description := "Writes a file", inputSchema := "s2",
    annotations := "a2" }

/-! Environment save/restore lemmas. -/

theorem restoreVar_eval (e : Env) (k : String) (ov : Option String) (x : String) :
    restoreVar e k ov x = if x = k then ov else e x := by
  cases ov <;> simp [restoreVar, setEnv, unsetEnv]

theorem restoreEnvList_not_mem (S : List (String × Option String)) :
    ∀ (e : Env) (x : String), x ∉ S.map Prod.fst → restoreEnvList e S x = e x := by
  induction S with
  | nil => intro e x _; rfl
  | cons kv rest ih =>
    intro e x hx
    simp only [List.map_cons, List.mem_cons] at hx
    push_neg at hx
    simp only [restoreEnvList]
    rw [ih _ x hx.2, restoreVar_eval, if_neg hx.1]

theorem restoreEnvList_mem_indep (S : List (String × Option String)) :
    ∀ (e e' : Env) (x : String), x ∈ S.map Prod.fst →
      restoreEnvList e S x = restoreEnvList e' S x := by
  induction S with
  | nil => intro e e' x hx; simp at hx
  | cons kv rest ih =>
    intro e e' x hx
    simp only [restoreEnvList]
    by_cases hmem : x ∈ rest.map Prod.fst
    · exact ih _ _ x hmem
    · simp only [List.map_cons, List.mem_cons] at hx
      rcases hx with hx | hx
      · rw [restoreEnvList_not_mem rest _ x hmem,
          restoreEnvList_not_mem rest _ x hmem, restoreVar_eval, restoreVar_eval,
          if_pos hx, if_pos hx]
      · exact absurd hx hmem

theorem applyEnvList_snd_keys (m : List (String × String)) :
    ∀ e : Env, ((applyEnvList e m).2).map Prod.fst = m.map Prod.fst := by
  induction m with
  | nil => intro e; rfl
  | cons kv rest ih =>
    intro e
    cases kv with
    | mk k v => simp only [applyEnvList, List.map_cons, ih]

theorem applyEnvList_fst_not_mem (m : List (String × String)) :
    ∀ (e : Env) (x : String), x ∉ m.map Prod.fst →
      (applyEnvList e m).1 x = e x := by
  induction m with
  | nil => intro e x _; rfl
  | cons kv rest ih =>
    intro e x hx
    cases kv with
    | mk k v =>
      simp only [List.map_cons, List.mem_cons] at hx
      push_neg at hx
      simp only [applyEnvList]
      rw [ih _ x hx.2]
      simp [setEnv, hx.1]

/-- The round trip of the set-up loop and the `finally` restore loop brings
every variable of the environment table back to its prior value, provided the
`env` mapping has no duplicate keys (a JSON object cannot have any). -/
theorem applyEnvList_restore (m : List (String × String)) :
    ∀ e : Env, (m.map Prod.fst).Nodup → ∀ x : String,
      restoreEnvList (applyEnvList e m).1 (applyEnvList e m).2 x = e x := by
  induction m with
  | nil => intro e _ x; rfl
  | cons kv rest ih =>
    intro e hnd x
    cases kv with
    | mk k v =>
      simp only [List.map_cons, List.nodup_cons] at hnd
      obtain ⟨hk, hrest⟩ := hnd
      simp only [applyEnvList, restoreEnvList]
      by_cases hx : x ∈ ((applyEnvList (setEnv e k v) rest).2).map Prod.fst
      · have hxk : x ≠ k := by
          rw [applyEnvList_snd_keys] at hx
          intro hcontra; rw [hcontra] at hx; exact hk hx
        rw [restoreEnvList_mem_indep _ _ ((applyEnvList (setEnv e k v) rest).1) x hx,
          ih (setEnv e k v) hrest x]
        simp [setEnv, hxk]
      · rw [restoreEnvList_not_mem _ _ x hx, restoreVar_eval]
        by_cases hxk : x = k
        · rw [if_pos hxk, hxk]
        · rw [if_neg hxk]
          rw [applyEnvList_snd_keys] at hx
          rw [applyEnvList_fst_not_mem rest _ x hx]
          simp [setEnv, hxk]

/-! Gather lemmas: with a completion schedule covering every task index, the
gathered result list is the input-order list of per-task results, and those
results do not depend on the environment interleaving. -/

theorem runTasksSched_fst_not_mem (tasks : List (String × ServerConfig))
    (outcomes : String → SessionOutcome) (dry_run : Bool) (sched : List Nat) :
    ∀ (f : Nat → Option (Except String ServerResult)) (e : Env) (i : Nat),
      i ∉ sched →
      (runTasksSched tasks outcomes dry_run sched (f, e)).1 i = f i := by
  induction sched with
  | nil => intro f e i _; rfl
  | cons j rest ih =>
    intro f e i hi
    simp only [List.mem_cons] at hi
    push_neg at hi
    simp only [runTasksSched]
    cases h : tasks.get? j with
    | none => exact ih f e i hi.2
    | some p =>
      rw [ih _ _ i hi.2]
      simp [hi.1]

theorem runTasksSched_fst_mem (tasks : List (String × ServerConfig))
    (outcomes : String → SessionOutcome) (dry_run : Bool) (sched : List Nat) :
    ∀ (f : Nat → Option (Except String ServerResult)) (e : Env) (i : Nat)
      (p : String × ServerConfig), i ∈ sched → tasks.get? i = some p →
      (runTasksSched tasks outcomes dry_run sched (f, e)).1 i =
        some (extractResult p.1 p.2 dry_run (outcomes p.1)) := by
  induction sched with
  | nil => intro f e i p hi _; simp at hi
  | cons j rest ih =>
    intro f e i p hi hget
    simp only [runTasksSched]
    by_cases hmem : i ∈ rest
    · cases h : tasks.get? j with
      | none => exact ih f e i p hmem hget
      | some q => exact ih _ _ i p hmem hget
    · simp only [List.mem_cons] at hi
      rcases hi with hi | hi
      · subst hi
        rw [hget]
        rw [runTasksSched_fst_not_mem _ _ _ _ _ _ i hmem]
        simp [extract_tools_from_server]
      · exact absurd hi hmem

theorem gatherSched_covering (tasks : List (String × ServerConfig))
    (outcomes : String → SessionOutcome) (dry_run : Bool) (sched : List Nat)
    (e : Env) (hcov : ∀ i, i < tasks.length → i ∈ sched) :
    (gatherSched tasks outcomes dry_run sched e).1 =
      tasks.map (fun p => extractResult p.1 p.2 dry_run (outcomes p.1)) := by
  apply List.ext_getElem
  · simp [gatherSched]
  · intro i h1 h2
    simp only [gatherSched, List.getElem_map, List.getElem_range]
    have hlen : i < tasks.length := by simpa [gatherSched] using h1
    have hget : tasks.get? i = some tasks[i] := List.get?_eq_get hlen
    rw [runTasksSched_fst_mem tasks outcomes dry_run sched _ e i tasks[i]
      (hcov i hlen) hget]
    rfl

theorem runTasksSched_snd_dry (tasks : List (String × ServerConfig))
    (outcomes : String → SessionOutcome) (sched : List Nat) :
    ∀ (f : Nat → Option (Except String ServerResult)) (e : Env),
      (runTasksSched tasks outcomes true sched (f, e)).2 = e := by
  induction sched with
  | nil => intro f e; rfl
  | cons j rest ih =>
    intro f e
    simp only [runTasksSched]
    cases h : tasks.get? j with
    | none => exact ih f e
    | some p => exact ih _ e

theorem serverResultsOf_eq_filterMap (results : List (Except String ServerResult)) :
    serverResultsOf results = results.filterMap okValue := by
  have key : ∀ (rs : List (Except String ServerResult)) (acc : List ServerResult),
      rs.foldl (fun acc r => match r with | .ok v => acc ++ [v] | .error _ => acc) acc =
        acc ++ rs.filterMap okValue := by
    intro rs
    induction rs with
    | nil => intro acc; simp
    | cons r rest ih =>
      intro acc
      cases r with
      | ok v => simp [List.foldl_cons, ih, okValue, List.filterMap_cons]
      | error msg => simp [List.foldl_cons, ih, okValue, List.filterMap_cons]
  simpa using key results []

theorem serverResultsOf_gather (tasks : List (String × ServerConfig))
    (outcomes : String → SessionOutcome) (dry_run : Bool) (sched : List Nat)
    (e : Env) (hcov : ∀ i, i < tasks.length → i ∈ sched) :
    serverResultsOf (gatherSched tasks outcomes dry_run sched e).1 =
      okResults tasks dry_run outcomes := by
  rw [serverResultsOf_eq_filterMap, gatherSched_covering tasks outcomes dry_run sched e hcov,
    List.filterMap_map]
  rfl

theorem runTasksSched_nil_tasks (outcomes : String → SessionOutcome)
    (dry_run : Bool) (sched : List Nat) :
    ∀ (f : Nat → Option (Except String ServerResult)) (e : Env),
      runTasksSched [] outcomes dry_run sched (f, e) = (f, e) := by
  induction sched with
  | nil => intro f e; rfl
  | cons j rest ih => intro f e; exact ih f e

theorem main_eq_of_filtered (doc : ConfigDoc) (filter : Option String)
    (servers : List (String × ServerConfig)) (dry_run : Bool)
    (outcomes : String → SessionOutcome) (sched : List Nat) (e : Env)
    (hf : filteredServers doc filter = some servers)
    (hcov : ∀ i, i < servers.length → i ∈ sched) :
    (main (some doc) filter dry_run outcomes sched e).1 =
      some { metadata := { servers_processed := servers.length,
                           servers_successful :=
                             (okResults servers dry_run outcomes).length },
             servers := okResults servers dry_run outcomes } := by
  simp only [main, hf]
  rw [serverResultsOf_gather servers outcomes dry_run sched e hcov]

theorem okResults_dry (servers : List (String × ServerConfig))
    (outcomes : String → SessionOutcome) :
    okResults servers true outcomes =
      servers.map (fun p => baseResult p.1 p.2) := by
  induction servers with
  | nil => rfl
  | cons p rest ih =>
    simp only [okResults, List.filterMap_cons, List.map_cons] at *
    rw [show okValue (extractResult p.1 p.2 true (outcomes p.1)) =
        some (baseResult p.1 p.2) from rfl, ih]

theorem extractResult_name (n : String) (cfg : ServerConfig) (d : Bool)
    (oc : SessionOutcome) (r : ServerResult)
    (h : okValue (extractResult n cfg d oc) = some r) : r.server_name = n := by
  cases d with
  | true =>
    have : r = baseResult n cfg := by
      simpa [extractResult, okValue, baseResult] using h.symm
    rw [this]; rfl
  | false =>
    cases hc : cfg.command with
    | none => simp [extractResult, okValue, hc] at h
    | some c =>
      cases oc with
      | success rawTools =>
        simp only [extractResult, okValue, hc] at h
        rw [← Option.some_inj.mp h]
      | timeout =>
        simp only [extractResult, okValue, hc] at h
        rw [← Option.some_inj.mp h]
      | sessionError msg =>
        simp only [extractResult, okValue, hc] at h
        rw [← Option.some_inj.mp h]

theorem okResults_names (servers : List (String × ServerConfig)) (dry_run : Bool)
    (outcomes : String → SessionOutcome) (sr : ServerResult)
    (h : sr ∈ okResults servers dry_run outcomes) :
    sr.server_name ∈ servers.map Prod.fst := by
  rcases List.mem_filterMap.mp h with ⟨p, hp, hv⟩
  rw [extractResult_name p.1 p.2 dry_run (outcomes p.1) sr hv]
  exact List.mem_map_of_mem Prod.fst hp

theorem okResults_count (servers : List (String × ServerConfig)) (dry_run : Bool)
    (outcomes : String → SessionOutcome)
    (hnd : (servers.map Prod.fst).Nodup) (p : String × ServerConfig)
    (hp : p ∈ servers) :
    ((okResults servers dry_run outcomes).filter
        (fun sr => sr.server_name = p.1)).length =
      if (okValue (extractResult p.1 p.2 dry_run (outcomes p.1))).isSome
      then 1 else 0 := by
  induction servers with
  | nil => simp at hp
  | cons q rest ih =>
    simp only [List.map_cons, List.nodup_cons] at hnd
    obtain ⟨hq, hrest⟩ := hnd
    have tail_nil : p.1 ∉ rest.map Prod.fst →
        (okResults rest dry_run outcomes).filter
          (fun sr => sr.server_name = p.1) = [] := by
      intro hnotmem
      rw [List.filter_eq_nil_iff]
      intro sr hsr
      have := okResults_names rest dry_run outcomes sr hsr
      simp only [decide_eq_true_eq]
      intro hcontra
      rw [hcontra] at this
      exact hnotmem this
    rcases List.mem_cons.mp hp with hpq | hpr
    · subst hpq
      cases hv : okValue (extractResult p.1 p.2 dry_run (outcomes p.1)) with
      | none =>
        have h0 : okResults (p :: rest) dry_run outcomes =
            okResults rest dry_run outcomes := by
          simp only [okResults, List.filterMap_cons, hv]
        rw [h0, tail_nil hq]
        rfl
      | some r =>
        have hname : r.server_name = p.1 :=
          extractResult_name p.1 p.2 dry_run (outcomes p.1) r hv
        have h0 : okResults (p :: rest) dry_run outcomes =
            r :: okResults rest dry_run outcomes := by
          simp only [okResults, List.filterMap_cons, hv]
        rw [h0, List.filter_cons, if_pos (by simp [hname]), tail_nil hq]
        rfl
    · have hkeys : p.1 ∈ rest.map Prod.fst := List.mem_map_of_mem Prod.fst hpr
      have hne : p.1 ≠ q.1 := by
        intro hcontra; rw [← hcontra] at hq; exact hq hkeys
      cases hv : okValue (extractResult q.1 q.2 dry_run (outcomes q.1)) with
      | none =>
        have h0 : okResults (q :: rest) dry_run outcomes =
            okResults rest dry_run outcomes := by
          simp only [okResults, List.filterMap_cons, hv]
        rw [h0]
        exact ih hrest hpr
      | some r =>
        have hname : r.server_name = q.1 :=
          extractResult_name q.1 q.2 dry_run (outcomes q.1) r hv
        have h0 : okResults (q :: rest) dry_run outcomes =
            r :: okResults rest dry_run outcomes := by
          simp only [okResults, List.filterMap_cons, hv]
        rw [h0, List.filter_cons,
          if_neg (by simp only [hname, decide_eq_true_eq]; exact fun hcontra => hne hcontra.symm)]
        exact ih hrest hpr

theorem foldl_append_eq_map (l : List RawTool) :
    l.foldl (fun acc t => acc ++ [mkDescriptor t]) [] = l.map mkDescriptor := by
  have key : ∀ (l : List RawTool) (acc : List ToolDescriptor),
      l.foldl (fun acc t => acc ++ [mkDescriptor t]) acc =
        acc ++ l.map mkDescriptor := by
    intro l
    induction l with
    | nil => intro acc; simp
    | cons t rest ih => intro acc; simp [ih]
  simpa using key l []

/-! Claim theorems. -/

/-- C1: with dryRun false, a timeout of the connect+handshake+list sequence,
or any other failure inside it (spawn failure, protocol error, malformed
response), is absorbed: `extract_tools_from_server` returns normally
(`Except.ok`, nothing raised to the caller) with the server's config echoed
and an empty `tools` list. -/
theorem C1_session_failure_absorbed (server_name : String) (cfg : ServerConfig)
    (c : String) (oc : SessionOutcome) (e : Env)
    (hc : cfg.command = some c)
    (hfail : oc = .timeout ∨ ∃ msg, oc = .sessionError msg) :
    (extract_tools_from_server server_name cfg false oc e).1 =
      .ok (baseResult server_name cfg) := by
  rcases hfail with h | ⟨msg, h⟩ <;> subst h <;>
    simp [extract_tools_from_server, extractResult, baseResult, hc]

/-- Witness for C1 at a concrete timed-out server. -/
theorem C1_session_failure_absorbed_witness :
    (extract_tools_from_server "srv" cfgEx false .timeout envEmpty).1 =
      .ok (baseResult "srv" cfgEx) :=
  C1_session_failure_absorbed "srv" cfgEx "npx" .timeout envEmpty rfl (Or.inl rfl)

/-- C2: for a server config whose `env` mapping has no duplicate keys (a JSON
object cannot), after `extract_tools_from_server` completes -- in dry-run mode,
on success, on timeout, on session failure, or on the raising path -- every
environment variable (touched or not) has its value from before the call:
restored to its exact prior value, or removed if previously absent, because
the restore loop sits in a `finally` block. -/
theorem C2_env_restored (server_name : String) (cfg : ServerConfig)
    (dry_run : Bool) (oc : SessionOutcome) (e : Env)
    (hnd : (cfg.env.map Prod.fst).Nodup) (x : String) :
    (extract_tools_from_server server_name cfg dry_run oc e).2 x = e x := by
  show extractEnvAfter cfg dry_run e x = e x
  cases dry_run with
  | true => rfl
  | false => exact applyEnvList_restore cfg.env e hnd x

/-- Witness for C2: `API_KEY` was set to `"old"` before a timed-out call that
overwrites it with `"k"`, and reads `"old"` again afterwards. -/
theorem C2_env_restored_witness :
    (extract_tools_from_server "srv" cfgEx false .timeout envHome).2 "API_KEY" =
      envHome "API_KEY" :=
  C2_env_restored "srv" cfgEx false .timeout envHome (by decide) "API_KEY"

/-- C3: with dryRun true, for any configuration, any session oracle, any
completion schedule covering the tasks, and any starting environment, the run
mutates no environment variable (final table equals the initial one), consults
the session oracle for no server (the result is the same whatever the oracle
says, so no process is spawned), and reports one entry per configured server,
echoing its name, command, args and env with empty `tools`. -/
theorem C3_dry_run_report (doc : ConfigDoc) (outcomes : String → SessionOutcome)
    (sched : List Nat) (e : Env)
    (hcov : ∀ i, i < (doc.mcpServers.getD []).length → i ∈ sched) :
    main (some doc) none true outcomes sched e =
      (some { metadata :=
                { servers_processed := (doc.mcpServers.getD []).length,
                  servers_successful := (doc.mcpServers.getD []).length },
              servers := (doc.mcpServers.getD []).map
                (fun p => baseResult p.1 p.2) }, e) := by
  have hf : filteredServers doc none = some (doc.mcpServers.getD []) := rfl
  simp only [main, hf]
  rw [serverResultsOf_gather _ outcomes true sched e hcov, okResults_dry]
  simp only [gatherSched]
  rw [runTasksSched_snd_dry]
  simp [List.length_map]

/-- Witness for C3 at a two-server config (one of them with no command),
with a completion schedule different from configuration order. -/
theorem C3_dry_run_report_witness :
    main (some docTwo) none true ocTimeout [1, 0] envEmpty =
      (some { metadata := { servers_processed := 2, servers_successful := 2 },
              servers := [baseResult "one" cfgEx, baseResult "two" cfgBroken] },
       envEmpty) :=
  C3_dry_run_report docTwo ocTimeout [1, 0] envEmpty (by decide)

/-- C4 counterexample: one server is configured, but its config has no
`command`, so `StdioServerParameters` raises outside the inner `try`, the task
raises, and the exception filter of `main` drops it -- the final report has an
empty `servers` list despite one configured server, refuting "no server is
ever dropped". -/
theorem C4_dropped_server_cex :
    (docBroken.mcpServers.getD []).length = 1 ∧
      (main (some docBroken) none false ocTimeout [0] envEmpty).1 =
        some { metadata := { servers_processed := 1, servers_successful := 0 },
               servers := [] } :=
  ⟨rfl, rfl⟩

/-- C4 (amended): in every run, the final report contains exactly one
ServerResult for each configured server (after filtering) whose extraction
task completed without raising, and none for a server whose task raised --
such a server is dropped from the `servers` list. -/
theorem C4_one_result_per_completed_server (doc : ConfigDoc)
    (filter : Option String) (servers : List (String × ServerConfig))
    (dry_run : Bool) (outcomes : String → SessionOutcome) (sched : List Nat)
    (e : Env) (hf : filteredServers doc filter = some servers)
    (hcov : ∀ i, i < servers.length → i ∈ sched)
    (hnd : (servers.map Prod.fst).Nodup) (p : String × ServerConfig)
    (hp : p ∈ servers) :
    ((main (some doc) filter dry_run outcomes sched e).1).map
        (fun rpt => (rpt.servers.filter
          (fun sr => sr.server_name = p.1)).length) =
      some (if (okValue (extractResult p.1 p.2 dry_run (outcomes p.1))).isSome
            then 1 else 0) := by
  rw [main_eq_of_filtered doc filter servers dry_run outcomes sched e hf hcov]
  show some ((okResults servers dry_run outcomes).filter
    (fun sr => sr.server_name = p.1)).length = _
  rw [okResults_count servers dry_run outcomes hnd p hp]

/-- Witness for C4 (amended): in a run over `docTwo`, the completed server
`one` has exactly one entry and the raising server would have none. -/
theorem C4_one_result_per_completed_server_witness :
    ((main (some docTwo) none false ocTimeout [0, 1] envEmpty).1).map
        (fun rpt => (rpt.servers.filter
          (fun sr => sr.server_name = "one")).length) =
      some (if (okValue (extractResult "one" cfgEx false
              (ocTimeout "one"))).isSome then 1 else 0) :=
  C4_one_result_per_completed_server docTwo none
    [("one", cfgEx), ("two", cfgBroken)] false ocTimeout [0, 1] envEmpty rfl
    (by decide) (by decide) ("one", cfgEx) (by decide)

/-- C5: the `servers` sequence of the report is the per-task results in the
iteration order of the (filtered) configuration mapping, minus the entries
whose task raised; and it is the same sequence under any two task-completion
schedules, so it is not in completion order when that differs from
configuration order. -/
theorem C5_config_order (doc : ConfigDoc) (filter : Option String)
    (servers : List (String × ServerConfig)) (dry_run : Bool)
    (outcomes : String → SessionOutcome) (sched1 sched2 : List Nat)
    (e1 e2 : Env) (hf : filteredServers doc filter = some servers)
    (hcov1 : ∀ i, i < servers.length → i ∈ sched1)
    (hcov2 : ∀ i, i < servers.length → i ∈ sched2) :
    ((main (some doc) filter dry_run outcomes sched1 e1).1).map
        RunReport.servers = some (okResults servers dry_run outcomes) ∧
      ((main (some doc) filter dry_run outcomes sched1 e1).1).map
          RunReport.servers =
        ((main (some doc) filter dry_run outcomes sched2 e2).1).map
          RunReport.servers := by
  rw [main_eq_of_filtered doc filter servers dry_run outcomes sched1 e1 hf hcov1,
    main_eq_of_filtered doc filter servers dry_run outcomes sched2 e2 hf hcov2]
  exact ⟨rfl, rfl⟩

/-- Witness for C5: two schedules, one of them reversed, over a two-server
config whose second server's task raises. -/
theorem C5_config_order_witness :
    ((main (some docTwo) none false ocTimeout [0, 1] envEmpty).1).map
        RunReport.servers =
        some (okResults [("one", cfgEx), ("two", cfgBroken)] false ocTimeout) ∧
      ((main (some docTwo) none false ocTimeout [0, 1] envEmpty).1).map
          RunReport.servers =
        ((main (some docTwo) none false ocTimeout [1, 0] envHome).1).map
          RunReport.servers :=
  C5_config_order docTwo none [("one", cfgEx), ("two", cfgBroken)] false
    ocTimeout [0, 1] [1, 0] envEmpty envHome rfl (by decide) (by decide)

/-- C6: whenever a report is produced, `servers_processed` counts the configs
considered after filtering, and `servers_successful` counts the tasks that
completed without raising -- which includes servers that timed out or failed
to connect, since those return an empty-tools result instead of raising. -/
theorem C6_metadata_counts (doc : ConfigDoc) (filter : Option String)
    (servers : List (String × ServerConfig)) (dry_run : Bool)
    (outcomes : String → SessionOutcome) (sched : List Nat) (e : Env)
    (r : RunReport) (hf : filteredServers doc filter = some servers)
    (hcov : ∀ i, i < servers.length → i ∈ sched)
    (hr : (main (some doc) filter dry_run outcomes sched e).1 = some r) :
    r.metadata.servers_processed = servers.length ∧
      r.metadata.servers_successful =
        (okResults servers dry_run outcomes).length := by
  rw [main_eq_of_filtered doc filter servers dry_run outcomes sched e hf hcov]
    at hr
  cases Option.some_inj.mp hr
  exact ⟨rfl, rfl⟩

/-- Witness for C6: a single server that times out is still counted in
`servers_successful` (1 of 1), exhibiting the "did not raise" reading. -/
theorem C6_metadata_counts_witness :
    ({ metadata := { servers_processed := 1, servers_successful := 1 },
       servers := [baseResult "one" cfgEx] } :
        RunReport).metadata.servers_processed = 1 ∧
      ({ metadata := { servers_processed := 1, servers_successful := 1 },
         servers := [baseResult "one" cfgEx] } :
          RunReport).metadata.servers_successful =
        (okResults [("one", cfgEx)] false ocTimeout).length :=
  C6_metadata_counts docOne none [("one", cfgEx)] false ocTimeout [0] envEmpty
    { metadata := { servers_processed := 1, servers_successful := 1 },
      servers := [baseResult "one" cfgEx] } rfl (by decide) rfl

/-- C7: when the config file fails to load or parse, or when the `--server`
filter names a server absent from the configuration, `main` aborts fatally:
no output document is written (first component `none`), the environment is
untouched, and the function returns instead of raising to the shell. -/
theorem C7_config_error_aborts (configLoad : Option ConfigDoc)
    (filter : Option String) (dry_run : Bool)
    (outcomes : String → SessionOutcome) (sched : List Nat) (e : Env)
    (h : configLoad = none ∨
      ∃ doc s, configLoad = some doc ∧ filter = some s ∧
        lookupA (doc.mcpServers.getD []) s = none) :
    main configLoad filter dry_run outcomes sched e = (none, e) := by
  rcases h with h | ⟨doc, s, hdoc, hfil, hlook⟩
  · subst h; rfl
  · subst hdoc; subst hfil
    simp [main, filteredServers, hlook]

/-- Witness for C7: a `--server` filter naming a server not in the config. -/
theorem C7_config_error_aborts_witness :
    main (some docOne) (some "absent") false ocTimeout [0] envEmpty =
      (none, envEmpty) :=
  C7_config_error_aborts (some docOne) (some "absent") false ocTimeout [0]
    envEmpty (Or.inr ⟨docOne, "absent", rfl, rfl, by decide⟩)

/-- C8: on a successful session, every tool entry reported by the server is
mapped one-to-one into a ToolDescriptor carrying its name, description,
inputSchema and annotations, and the `tools` list keeps the server's order:
it equals the field-for-field image of the reported list, with the same
length and the same entry at every index. -/
theorem C8_tools_mapped (server_name : String) (cfg : ServerConfig)
    (c : String) (rawTools : List RawTool) (e : Env)
    (hc : cfg.command = some c) :
    ∃ r : ServerResult,
      (extract_tools_from_server server_name cfg false
        (.success rawTools) e).1 = .ok r ∧
      r.tools = rawTools.map mkDescriptor ∧
      r.tools.length = rawTools.length ∧
      ∀ i : Nat, r.tools.get? i = (rawTools.get? i).map mkDescriptor := by
  refine ⟨{ baseResult server_name cfg with
            tools := rawTools.map mkDescriptor }, ?_, rfl, ?_, ?_⟩
  · simp [extract_tools_from_server, extractResult, baseResult, hc,
      foldl_append_eq_map]
  · exact List.length_map rawTools mkDescriptor
  · intro i; exact List.get?_map mkDescriptor rawTools i

/-- Witness for C8 at a session reporting two tools. -/
theorem C8_tools_mapped_witness :
    ∃ r : ServerResult,
      (extract_tools_from_server "srv" cfgEx false
        (.success [rawT1, rawT2]) envEmpty).1 = .ok r ∧
      r.tools = [rawT1, rawT2].map mkDescriptor ∧
      r.tools.length = [rawT1, rawT2].length ∧
      ∀ i : Nat, r.tools.get? i = ([rawT1, rawT2].get? i).map mkDescriptor :=
  C8_tools_mapped "srv" cfgEx "npx" [rawT1, rawT2] envEmpty rfl

/-- C9: with dryRun true, the written document is a deterministic function of
the configuration alone: two runs on the same parsed configuration agree even
under different session oracles, completion schedules and starting
environments (the model has no timestamp or duration fields). -/
theorem C9_dry_run_deterministic (doc : ConfigDoc) (filter : Option String)
    (oc1 oc2 : String → SessionOutcome) (sched1 sched2 : List Nat)
    (e1 e2 : Env)
    (hcov1 : ∀ servers, filteredServers doc filter = some servers →
      ∀ i, i < servers.length → i ∈ sched1)
    (hcov2 : ∀ servers, filteredServers doc filter = some servers →
      ∀ i, i < servers.length → i ∈ sched2) :
    (main (some doc) filter true oc1 sched1 e1).1 =
      (main (some doc) filter true oc2 sched2 e2).1 := by
  cases hf : filteredServers doc filter with
  | none => simp [main, hf]
  | some servers =>
    rw [main_eq_of_filtered doc filter servers true oc1 sched1 e1 hf
        (hcov1 servers hf),
      main_eq_of_filtered doc filter servers true oc2 sched2 e2 hf
        (hcov2 servers hf),
      okResults_dry servers oc1, okResults_dry servers oc2]

/-- Witness for C9: two dry runs over `docTwo` with different oracles,
schedules and environments produce the same document. -/
theorem C9_dry_run_deterministic_witness :
    (main (some docTwo) none true ocTimeout [0, 1] envEmpty).1 =
      (main (some docTwo) none true (fun _ => .sessionError "boom") [1, 0]
        envHome).1 :=
  C9_dry_run_deterministic docTwo none ocTimeout
    (fun _ => .sessionError "boom") [0, 1] [1, 0] envEmpty envHome
    (by intro servers hs; cases hs; decide)
    (by intro servers hs; cases hs; decide)

/-- C10: a config document that parses but has no `mcpServers` key is not a
configuration error: the run completes and writes a report with
`servers_processed = 0`, `servers_successful = 0` and an empty `servers`
list, leaving the environment untouched. -/
theorem C10_missing_mcpServers (doc : ConfigDoc) (dry_run : Bool)
    (outcomes : String → SessionOutcome) (sched : List Nat) (e : Env)
    (hdoc : doc.mcpServers = none) :
    main (some doc) none dry_run outcomes sched e =
      (some { metadata := { servers_processed := 0, servers_successful := 0 },
              servers := [] }, e) := by
  have hf : filteredServers doc none = some [] := by
    simp [filteredServers, hdoc]
  simp only [main, hf, gatherSched]
  rw [runTasksSched_nil_tasks outcomes dry_run sched _ e]
  rfl

/-- Witness for C10 at the concrete document without `mcpServers`. -/
theorem C10_missing_mcpServers_witness :
    main (some docEmpty) none false ocTimeout [] envEmpty =
      (some { metadata := { servers_processed := 0, servers_successful := 0 },
              servers := [] }, envEmpty) :=
  C10_missing_mcpServers docEmpty false ocTimeout [] envEmpty rfl

end MCPAnalyser
